import Mathlib

/-!
Verification of the turn-taking and shared-state orchestration layer of the
xiahack debate backend. Definitions are shallow embeddings of the functions
in `backend/app.py` and `backend/research_agent.py`; theorems settle the
frozen claims about them.
-/

namespace XiaHack

/-! ## Hot Takes List (app.py, `add_hot_take` / `replace_hot_take` / `delete_hot_take`) -/

/-- The named constant `MAX_HOT_TAKES = 4` from `app.py`. -/
def MAX_HOT_TAKES : Nat := 4

/-- The tool-level failures raised by the hot-take tools (`ToolError` messages
in `app.py`), named after the error taxonomy. -/
inductive HotTakeError where
  | duplicateTake
  | capacityExceeded
  | takeNotFound
deriving DecidableEq, Repr

/-- `add_hot_take` from `app.py`: raises on a duplicate (exact string match),
then on capacity, otherwise appends. The Python method mutates
`session.hot_takes` in place; here the resulting list is returned, and an
error return corresponds to the `ToolError` being raised before any mutation. -/
def add_hot_take (takes : List String) (text : String) :
    Except HotTakeError (List String) :=
  if text ∈ takes then .error .duplicateTake
  else if MAX_HOT_TAKES ≤ takes.length then .error .capacityExceeded
  else .ok (takes ++ [text])

/-- `replace_hot_take` from `app.py`: `takes.index(old_text)` finds the first
occurrence and `takes[idx] = new_text` overwrites it in place; no check is
made that `new_text` is absent from the list. -/
def replace_hot_take (takes : List String) (oldText newText : String) :
    Except HotTakeError (List String) :=
  if oldText ∈ takes then .ok (takes.set (takes.indexOf oldText) newText)
  else .error .takeNotFound

/-- `delete_hot_take` from `app.py`: `takes.remove(text)` removes the first
occurrence of `text`, raising if it is absent. -/
def delete_hot_take (takes : List String) (text : String) :
    Except HotTakeError (List String) :=
  if text ∈ takes then .ok (takes.erase text)
  else .error .takeNotFound

/-- One invocation of a hot-take tool, as exposed to the language model. -/
inductive HotOp where
  | add (text : String)
  | replace (oldText newText : String)
  | delete (text : String)
deriving DecidableEq, Repr

/-- Dispatch a hot-take operation to the corresponding tool. -/
def applyHotOp (takes : List String) : HotOp → Except HotTakeError (List String)
  | .add t => add_hot_take takes t
  | .replace o n => replace_hot_take takes o n
  | .delete t => delete_hot_take takes t

/-- The effect of one tool call on the shared list: a raised `ToolError`
leaves `session.hot_takes` untouched (each tool raises before mutating). -/
def stepHot (takes : List String) (op : HotOp) : List String :=
  match applyHotOp takes op with
  | .ok l => l
  | .error _ => takes

/-- The Hot Takes List after a sequence of tool calls, starting from the
empty list (`session.hot_takes = []` at session start). -/
def runHot (ops : List HotOp) : List String :=
  ops.foldl stepHot []

/-- Whether an operation is a `replace_hot_take` call. -/
def HotOp.isReplace : HotOp → Bool
  | .replace _ _ => true
  | _ => false

/-! ## Transcript Store and Perspective Transformer (app.py, `DebateChatMessage`,
`_reformat_history`) -/

/-- Message roles used by the debate (`role` field of `DebateChatMessage`). -/
inductive Role where
  | assistant
  | user
deriving DecidableEq, BEq, Repr

/-- `DebateChatMessage` from `app.py`: a chat message with speaker attribution
(`speaker` is the persona name or the literal "user"). `content` is the list
of content parts, as in the livekit `ChatMessage`. -/
structure DebateMsg where
  role : Role
  speaker : String
  content : List String
deriving DecidableEq, Repr

/-- `item.content[0] if item.content else ""` from `_reformat_history`. -/
def firstContent (m : DebateMsg) : String := m.content.headD ""

/-- The per-message body of `_reformat_history` in `app.py`, for the agent of
persona `personaName`: a message by the persona itself keeps its content and
gets `role="assistant"`; any other message gets `role="user"` and its content
becomes the f-string `"*SPEAKER says* CONTENT"`. -/
def reformatMsg (personaName : String) (m : DebateMsg) : DebateMsg :=
  let isSelf := m.speaker == personaName
  let c := firstContent m
  { role := if isSelf then .assistant else .user
    speaker := if isSelf then personaName else m.speaker
    content := [if isSelf then c else "*" ++ m.speaker ++ " says* " ++ c] }

/-- `_reformat_history` from `app.py`: works on a copy of the chat context
(`chat_ctx.copy()`), replacing every `DebateChatMessage` item; the original
store is left as it was. -/
def _reformat_history (personaName : String) (items : List DebateMsg) :
    List DebateMsg :=
  items.map (reformatMsg personaName)

/-- The transformation the spec text describes, for comparison with
`reformatMsg`: self is returned unchanged, others get role `user` and the
attribution text "SPEAKER says: CONTENT". -/
def specTransformMsg (personaName : String) (m : DebateMsg) : DebateMsg :=
  if m.speaker == personaName then { m with role := .assistant }
  else { role := .user, speaker := m.speaker
         content := [m.speaker ++ " says: " ++ firstContent m] }

/-! ## Personas and the next-speaker decision (app.py, `Persona`,
`next_speaker`) -/

/-- The `Persona` dataclass from `app.py` (the `gender` literal is kept as a
plain string). -/
structure Persona where
  id : Nat
  name : String
  prompt : String
  gender : String
  description : String
deriving DecidableEq, Repr

/-- Python `str.lower()` restricted to the character-wise case fold. -/
def lowerStr (s : String) : String := ⟨s.data.map Char.toLower⟩

/-- Outcome of the `give_turn_to_next_speaker` tool in `app.py`:
`handoff` is the `DebateAgent` persona returned (a `some p` return value
makes a fresh ephemeral agent for `p` the active speaker; `none` keeps the
current agent), and `scheduledUserPrompts` counts the `_prompt_user` tasks
created (each says "What do you think?" after the current playout). -/
structure TurnOutcome where
  handoff : Option Persona
  scheduledUserPrompts : Nat
deriving DecidableEq, Repr

/-- `next_speaker` from `app.py`: the "user" branch (case-insensitive)
schedules one prompting utterance and returns no handoff; otherwise the first
roster persona whose lowercased name equals the lowercased argument is handed
the turn; otherwise the fallback returns no handoff and the current agent
stays active. -/
def next_speaker (allPersonas : List Persona) (speaker : String) : TurnOutcome :=
  if lowerStr speaker == "user" then
    { handoff := none, scheduledUserPrompts := 1 }
  else
    match allPersonas.find? (fun p => lowerStr p.name == lowerStr speaker) with
    | some p => { handoff := some p, scheduledUserPrompts := 0 }
    | none => { handoff := none, scheduledUserPrompts := 0 }

/-! ## Avatar tool (app.py, `avatar_tool` and the class constants of
`DebateAgent`) -/

/-- `DebateAgent.SUPPORTED_AVATAR_IDS`. -/
def SUPPORTED_AVATAR_IDS : List String := ["assistant", "local"]

/-- `DebateAgent.SUPPORTED_EXPRESSIONS`. -/
def SUPPORTED_EXPRESSIONS : List String :=
  ["smile", "surprised", "concerned", "wink", "laugh"]

/-- `DebateAgent.EXPRESSION_SYNONYMS`, as an association list. -/
def EXPRESSION_SYNONYMS : List (String × String) :=
  [("happy", "smile"), ("serious", "concerned"), ("sad", "concerned"),
   ("frown", "concerned"), ("blink", "wink"), ("winking", "wink")]

/-- Python `str.strip()`: drop whitespace from both ends (character-wise). -/
def stripStr (s : String) : String :=
  ⟨((s.data.dropWhile Char.isWhitespace).reverse.dropWhile
      Char.isWhitespace).reverse⟩

/-- Python truthiness for an optional string: `None` and `""` are falsy.
`truthy a` is `a` when `a` is a non-empty string, else `none`. -/
def truthy : Option String → Option String
  | none => none
  | some s => if s == "" then none else some s

/-- The Python `or` of two optional strings under string truthiness. -/
def orTruthy (a b : Option String) : Option String :=
  match truthy a with
  | some s => some s
  | none => truthy b

/-- The `context` dict of an `AvatarToolCall`, restricted to the keys
`avatar_tool` reads (`preset`, `expression`, `avatarId`). -/
structure AvatarCallCtx where
  preset : Option String := none
  expression : Option String := none
  avatarId : Option String := none
deriving DecidableEq, Repr

/-- The `AvatarToolCall` pydantic model from `app.py`: `type` is required;
`preset` and `context` are optional; `extra="allow"` lets a top-level
`expression` key through, which `avatar_tool` also reads. -/
structure AvatarToolCall where
  type : String
  preset : Option String := none
  expression : Option String := none
  context : Option AvatarCallCtx := none
deriving DecidableEq, Repr

/-- The `raw_preset` chain in `avatar_tool`:
`payload.get("preset") or payload.get("expression") or
(payload.get("context") or \x7b\x7d).get("preset") or (...).get("expression")`. -/
def rawPresetOf (call : AvatarToolCall) : Option String :=
  let ctx := call.context.getD {}
  orTruthy call.preset (orTruthy call.expression (orTruthy ctx.preset ctx.expression))

/-- The data-channel payload built by `avatar_tool` on the publish path:
`kind` is always "avatar-tool", the call always has `type="setExpression"`
and the normalized preset, and `context.avatarId` is attached only when a
truthy avatar id was given. -/
structure AvatarPayload where
  kind : String
  callType : String
  preset : String
  avatarId : Option String
deriving DecidableEq, Repr

/-- Result of one `avatar_tool` invocation: either a payload is published on
the `avatar-tool` topic, or the call is dropped with a reported reason, or
there is no room to publish to. -/
inductive AvatarOutcome where
  | sent (payload : AvatarPayload)
  | skipped (reason : String)
  | noRoom
deriving DecidableEq, Repr

/-- `avatar_tool` from `app.py` (up to the actual network publish, which the
Python code attempts exactly when this returns `sent`): only `setExpression`
is accepted; the preset is lowercased, passed through `EXPRESSION_SYNONYMS`,
and checked against `SUPPORTED_EXPRESSIONS`; a truthy `avatarId` must be in
`SUPPORTED_AVATAR_IDS`. -/
def avatar_tool (hasRoom : Bool) (call : AvatarToolCall) : AvatarOutcome :=
  if !hasRoom then .noRoom
  else
    let callType := stripStr call.type
    if callType == "setExpression" then
      match rawPresetOf call with
      | none => .skipped "missing-preset"
      | some rawPreset =>
        let lowered := lowerStr rawPreset
        let preset := ((EXPRESSION_SYNONYMS.lookup lowered).getD lowered)
        if preset ∈ SUPPORTED_EXPRESSIONS then
          match truthy ((call.context.getD {}).avatarId) with
          | some a =>
            if a ∈ SUPPORTED_AVATAR_IDS then
              .sent { kind := "avatar-tool", callType := "setExpression"
                      preset := preset, avatarId := some a }
            else .skipped ("unsupported-avatar:" ++ a)
          | none =>
            .sent { kind := "avatar-tool", callType := "setExpression"
                    preset := preset, avatarId := none }
        else .skipped ("unsupported-preset:" ++ preset)
    else .skipped ("unsupported-type:" ++ callType)

/-! ## Outbound RPC with bounded retry (app.py, `_send_rpc` under
`@retry(stop=stop_after_attempt(3), reraise=True)`) -/

/-- Result of a `_send_rpc` call: whether it completed without raising, and
how many `perform_rpc` attempts were made. -/
structure RpcResult where
  ok : Bool
  attemptsMade : Nat
deriving DecidableEq, Repr

/-- The tenacity retry loop: at most `budget` attempts of the wrapped body;
`attemptOk i` tells whether the i-th attempt (0-based) of `perform_rpc`
succeeds. With `reraise=True` the final failure is re-raised after the
budget is exhausted. -/
def retryLoop (attemptOk : Nat → Bool) : Nat → Nat → RpcResult
  | 0, used => { ok := false, attemptsMade := used }
  | budget + 1, used =>
    if attemptOk used then { ok := true, attemptsMade := used + 1 }
    else retryLoop attemptOk budget (used + 1)

/-- `_send_rpc` from `app.py`: when no room io is set, or the room has no
remote participants, the coroutine returns at once without performing any
RPC (and therefore without any retry); otherwise `perform_rpc` is attempted
up to 3 times. -/
def _send_rpc (hasRoomIo : Bool) (hasRoom : Bool)
    (remoteParticipants : List String) (attemptOk : Nat → Bool) : RpcResult :=
  if !hasRoomIo then { ok := true, attemptsMade := 0 }
  else if !hasRoom || remoteParticipants.isEmpty then
    { ok := true, attemptsMade := 0 }
  else retryLoop attemptOk 3 0

/-! ## Research race (research_agent.py, `research_agent`) -/

/-- The `\x7btake, explanation, image_url\x7d` payload of a finished research
run (the `DONE` event data, also the value stored in
`session.research_results`). -/
structure Finding where
  take : String
  explanation : String
  imageUrl : Option String
deriving DecidableEq, Repr

/-- One of the three `do_search` tasks launched by `research_agent`:
`none` models a task that never completes; `some (t, out)` models a task
completing at time `t` with outcome `out` (`.error` when the coroutine
raises, `.ok` when it returns, with the later JSON extraction and image
phase collapsed into the final `Finding`). -/
def ResearchAttempt := Option (Nat × Except String Finding)

/-- The reduction performed by `asyncio.wait(..., return_when=FIRST_COMPLETED)`
followed by `done.pop()`: of two candidate completions keep the one that
finishes first (ties resolved toward the earlier task in the list, fixing
the choice `done.pop()` leaves arbitrary). -/
def earlierCompletion :
    Option (Nat × Except String Finding) → Option (Nat × Except String Finding) →
    Option (Nat × Except String Finding)
  | none, b => b
  | some a, none => some a
  | some a, some b => if b.1 < a.1 then some b else some a

/-- The outcome of the attempt that completes first, if any attempt
completes at all. -/
def firstCompleted (attempts : List ResearchAttempt) :
    Option (Except String Finding) :=
  (attempts.foldl earlierCompletion none).map Prod.snd

/-- The spec-side selector, for comparison with `firstCompleted`: the outcome
of the first attempt to complete successfully, ignoring attempts that fail. -/
def firstSuccessful (attempts : List ResearchAttempt) : Option Finding :=
  (attempts.map (fun a =>
      match a with
      | some (t, .ok f) => some (t, f)
      | _ => none)).foldl
    (fun acc b =>
      match acc, b with
      | none, b => b
      | some a, none => some a
      | some a, some b => if b.1 < a.1 then some b else some a) none
    |>.map Prod.snd

/-- The events yielded by the `research_agent` async generator. -/
inductive ResearchEvent where
  | searching
  | processingData
  | done (f : Finding)
  | errored (msg : String)
deriving DecidableEq, Repr

/-- `research_agent` from `research_agent.py`, as the list of events the
generator yields: `SEARCHING` is yielded first; `done.pop().result()`
re-raises when the first-completed task failed, in which case the `except`
clause yields `ERROR` and re-raises; otherwise `PROCESSING_DATA` and then
`DONE` with the winning finding are yielded. When no attempt ever completes
the generator stays blocked after `SEARCHING`. -/
def research_agent (attempts : List ResearchAttempt) : List ResearchEvent :=
  match firstCompleted attempts with
  | none => [.searching]
  | some (.error e) => [.searching, .errored e]
  | some (.ok f) => [.searching, .processingData, .done f]

/-! ## Session state, instructions, and the research lifecycle (app.py,
`session.research_results` / `session.researching_agents`,
`_build_instructions`, `_run_research`) -/

/-- Python dict assignment `tbl[k] = v` on an association list that keeps
insertion order: an existing binding for `k` is overwritten in place,
otherwise the pair is appended. -/
def dictInsert (tbl : List (Nat × Finding)) (k : Nat) (f : Finding) :
    List (Nat × Finding) :=
  if tbl.any (fun kv => kv.1 == k) then
    tbl.map (fun kv => if kv.1 == k then (k, f) else kv)
  else tbl ++ [(k, f)]

/-- The session-level mutable state attached to the `AgentSession` in
`entrypoint`: the Research Result Table, the Researching Set, and the Hot
Takes List. -/
structure SessionState where
  researchResults : List (Nat × Finding)
  researchingAgents : List Nat
  hotTakes : List String
deriving DecidableEq, Repr

/-- `_hot_takes_to_prompt` from `app.py`. -/
def _hot_takes_to_prompt (takes : List String) : String :=
  if takes.isEmpty then "(none yet)"
  else String.intercalate "\n" (takes.map (fun t => "- " ++ t))

/-- The list comprehension in `_build_instructions`:
`[p.name for p in self.all_personas if p.name != self.persona.name and
p.id not in self._session.researching_agents]`. -/
def otherParticipantNames (self : Persona) (allPersonas : List Persona)
    (researching : List Nat) : List String :=
  (allPersonas.filter
    (fun p => p.name != self.name && !(researching.contains p.id))).map
    Persona.name

/-- The value interpolated for `other_personas` in `AGENT_INSTRUCTIONS`:
`", ".join(names) + ", and User"`. -/
def otherParticipantsLine (self : Persona) (allPersonas : List Persona)
    (researching : List Nat) : String :=
  String.intercalate ", " (otherParticipantNames self allPersonas researching)
    ++ ", and User"

/-- The result of `_build_instructions`, by template slot (the constant prose
of `AGENT_INSTRUCTIONS` and `RESEARCH_FINDINGS_PROMPT` is elided; each field
is the computed value interpolated into the corresponding slot, and
`findings` is `some` exactly when the research-findings block is appended). -/
structure Instructions where
  personaName : String
  topic : String
  others : String
  hotTakesBlock : String
  findings : Option Finding
deriving DecidableEq, Repr

/-- `_build_instructions` from `app.py`: the other-participants line excludes
personas in the Researching Set, the hot-takes block renders the current
list, and `session.research_results.get(self.persona.id)` (a read, never a
delete) decides whether the findings block is appended. -/
def _build_instructions (self : Persona) (topic : String)
    (allPersonas : List Persona) (st : SessionState) : Instructions :=
  { personaName := self.name
    topic := topic
    others := otherParticipantsLine self allPersonas st.researchingAgents
    hotTakesBlock := _hot_takes_to_prompt st.hotTakes
    findings := st.researchResults.lookup self.id }

/-- The RPC messages `_run_research` sends to the frontend. -/
inductive ResearchRpc where
  | researchStatus (agentId : Nat) (event : ResearchEvent)
  | agentReturned (agentId : Nat) (hasFindings : Bool)
deriving DecidableEq, Repr

/-- The body of the `async for` loop in `_run_research`: every event is
forwarded as a `research_status` RPC; only a `DONE` event stores the finding
in `session.research_results`, discards the persona id from
`session.researching_agents`, and sends the `agent_returned` RPC. -/
def researchLoopStep (selfId : Nat) (st : SessionState) (ev : ResearchEvent) :
    SessionState × List ResearchRpc :=
  match ev with
  | .done f =>
    ({ st with
        researchResults := dictInsert st.researchResults selfId f
        researchingAgents := st.researchingAgents.filter (fun i => i != selfId) },
     [.researchStatus selfId ev, .agentReturned selfId true])
  | _ => (st, [.researchStatus selfId ev])

/-- `_run_research` from `app.py`, folded over the events the research
generator yields for persona `selfId`. -/
def _run_research (selfId : Nat) (st : SessionState)
    (events : List ResearchEvent) : SessionState × List ResearchRpc :=
  events.foldl
    (fun acc ev =>
      let next := researchLoopStep selfId acc.1 ev
      (next.1, acc.2 ++ next.2))
    (st, [])

/-! ## Agent entry (app.py, `DebateAgent.on_enter`) -/

/-- The externally visible actions `on_enter` performs, in order. -/
inductive EnterAction where
  | rpcSpeakerChanged (id : Nat)
  | rpcPersonasCreated
  | updateChatCtx
  | generateDirectReply
  | generateNextSpeakerDecision
deriving DecidableEq, Repr

/-- The `has_user_message` check in `on_enter`: whether any
`DebateChatMessage` in the session history has `role == "user"`. -/
def hasUserMessage (items : List DebateMsg) : Bool :=
  items.any (fun m => m.role == .user)

/-- `on_enter` from `app.py`: the `speaker_changed` RPC is always sent and
`personas_created` only when `self.first`; the chat context is rebuilt from
the reformatted history; then, whenever the history holds a user message —
on every entry, first or not — a direct reply is generated and a
next-speaker decision is requested, in that order; with no user message yet,
neither generation happens. -/
def on_enter (first : Bool) (selfId : Nat) (history : List DebateMsg) :
    List EnterAction :=
  [EnterAction.rpcSpeakerChanged selfId]
    ++ (if first then [EnterAction.rpcPersonasCreated] else [])
    ++ [EnterAction.updateChatCtx]
    ++ (if hasUserMessage history then
          [EnterAction.generateDirectReply,
           EnterAction.generateNextSpeakerDecision]
        else [])

/-! ## Helper lemmas -/

theorem stepHot_length_le (l : List String) (op : HotOp)
    (h : l.length ≤ MAX_HOT_TAKES) : (stepHot l op).length ≤ MAX_HOT_TAKES := by
  cases op with
  | add t =>
    by_cases hmem : t ∈ l
    · simp [stepHot, applyHotOp, add_hot_take, hmem, h]
    · by_cases hcap : MAX_HOT_TAKES ≤ l.length
      · simp [stepHot, applyHotOp, add_hot_take, hmem, hcap, h]
      · have hlt : l.length < MAX_HOT_TAKES := Nat.lt_of_not_le hcap
        simp [stepHot, applyHotOp, add_hot_take, hmem, hcap]
        omega
  | replace o n =>
    by_cases hmem : o ∈ l
    · simpa [stepHot, applyHotOp, replace_hot_take, hmem] using h
    · simpa [stepHot, applyHotOp, replace_hot_take, hmem] using h
  | delete t =>
    by_cases hmem : t ∈ l
    · have := (List.erase_sublist t l).length_le
      simp [stepHot, applyHotOp, delete_hot_take, hmem]
      omega
    · simpa [stepHot, applyHotOp, delete_hot_take, hmem] using h

theorem stepHot_nodup (l : List String) (op : HotOp) (hnd : l.Nodup)
    (hop : op.isReplace = false) : (stepHot l op).Nodup := by
  cases op with
  | add t =>
    by_cases hmem : t ∈ l
    · simpa [stepHot, applyHotOp, add_hot_take, hmem] using hnd
    · by_cases hcap : MAX_HOT_TAKES ≤ l.length
      · simpa [stepHot, applyHotOp, add_hot_take, hmem, hcap] using hnd
      · simp [stepHot, applyHotOp, add_hot_take, hmem, hcap,
          List.nodup_append, hnd, List.disjoint_singleton]
  | replace o n => simp [HotOp.isReplace] at hop
  | delete t =>
    by_cases hmem : t ∈ l
    · simpa [stepHot, applyHotOp, delete_hot_take, hmem] using
        List.Nodup.erase t hnd
    · simpa [stepHot, applyHotOp, delete_hot_take, hmem] using hnd

theorem foldl_stepHot_length (ops : List HotOp) :
    ∀ l : List String, l.length ≤ MAX_HOT_TAKES →
      (ops.foldl stepHot l).length ≤ MAX_HOT_TAKES := by
  induction ops with
  | nil => intro l h; simpa using h
  | cons op rest ih =>
    intro l h
    simpa [List.foldl_cons] using ih (stepHot l op) (stepHot_length_le l op h)

theorem foldl_stepHot_nodup (ops : List HotOp)
    (hops : ∀ op ∈ ops, op.isReplace = false) :
    ∀ l : List String, l.Nodup → (ops.foldl stepHot l).Nodup := by
  induction ops with
  | nil => intro l h; simpa using h
  | cons op rest ih =>
    intro l h
    have h1 : op.isReplace = false := hops op (List.mem_cons_self op rest)
    have h2 : ∀ o ∈ rest, o.isReplace = false := by
      intro o ho; exact hops o (List.mem_cons_of_mem op ho)
    simpa [List.foldl_cons] using ih h2 (stepHot l op) (stepHot_nodup l op h h1)

/-! ## Claims -/

/-- C1 counterexample: the sequence Add "a", Add "b", Replace "b" → "a"
leaves the Hot Takes List as ["a", "a"], which contains two equal strings;
`replace_hot_take` performs no uniqueness check against the new text, so the
claimed no-duplicates invariant fails. -/
theorem C1_counterexample :
    runHot [.add "a", .add "b", .replace "b" "a"] = ["a", "a"] ∧
    ¬ (runHot [.add "a", .add "b", .replace "b" "a"]).Nodup := by
  constructor
  · rfl
  · decide

/-- C1 amended: for every sequence of Add/Replace/Delete hot-take operations
starting from the empty list, the Hot Takes List never exceeds
MAX_HOT_TAKES (4) entries; and the list never contains two equal strings
provided the sequence contains no Replace — a Replace whose new text is
already present elsewhere in the list can introduce a duplicate. -/
theorem C1_amended (ops : List HotOp) :
    (runHot ops).length ≤ MAX_HOT_TAKES ∧
    ((∀ op ∈ ops, op.isReplace = false) → (runHot ops).Nodup) := by
  refine ⟨foldl_stepHot_length ops [] (by simp [MAX_HOT_TAKES]), ?_⟩
  intro hops
  exact foldl_stepHot_nodup ops hops [] List.nodup_nil

/-- C1 witness: a concrete Add/Delete/Add run stays within capacity and
duplicate-free. -/
theorem C1_witness :
    (runHot [.add "a", .delete "a", .add "b"]).length ≤ MAX_HOT_TAKES ∧
    (runHot [.add "a", .delete "a", .add "b"]).Nodup := by
  have h := C1_amended [.add "a", .delete "a", .add "b"]
  exact ⟨h.1, h.2 (by decide)⟩

/-- C4: the hot-take tools fail exactly as specified and are atomic on
failure. Add errors with DuplicateTake on a present text (checked before
capacity), with CapacityExceeded on a full list, and otherwise appends;
Replace errors with TakeNotFound on an absent old text and otherwise
overwrites in place at the position of the first occurrence, every other
position unchanged; Delete errors with TakeNotFound on an absent text and
otherwise removes the first occurrence; and any erroring call leaves the
list as it was. -/
theorem C4_hot_take_errors (l : List String) (t o n : String) :
    (t ∈ l → add_hot_take l t = .error .duplicateTake) ∧
    (t ∉ l → MAX_HOT_TAKES ≤ l.length →
      add_hot_take l t = .error .capacityExceeded) ∧
    (t ∉ l → l.length < MAX_HOT_TAKES → add_hot_take l t = .ok (l ++ [t])) ∧
    (o ∉ l → replace_hot_take l o n = .error .takeNotFound) ∧
    (o ∈ l → ∃ l', replace_hot_take l o n = .ok l' ∧
      l'.length = l.length ∧ l'[l.indexOf o]? = some n ∧
      ∀ j, j ≠ l.indexOf o → l'[j]? = l[j]?) ∧
    (t ∉ l → delete_hot_take l t = .error .takeNotFound) ∧
    (t ∈ l → ∃ l', delete_hot_take l t = .ok l' ∧
      l'.length + 1 = l.length ∧ (l.Nodup → t ∉ l')) ∧
    (∀ op e, applyHotOp l op = .error e → stepHot l op = l) := by
  refine ⟨?_, ?_, ?_, ?_, ?_, ?_, ?_, ?_⟩
  · intro h; simp [add_hot_take, h]
  · intro h hc; simp [add_hot_take, h, hc]
  · intro h hc; simp [add_hot_take, h, Nat.not_le.mpr hc]
  · intro h; simp [replace_hot_take, h]
  · intro h
    refine ⟨l.set (l.indexOf o) n, by simp [replace_hot_take, h], by simp, ?_, ?_⟩
    · exact List.getElem?_set_eq_of_lt n (List.indexOf_lt_length.mpr h)
    · intro j hj; exact List.getElem?_set_ne (fun hEq => hj hEq.symm)
  · intro h; simp [delete_hot_take, h]
  · intro h
    refine ⟨l.erase t, by simp [delete_hot_take, h], ?_, ?_⟩
    · have h1 := List.length_erase_of_mem h
      have h2 := List.length_pos_of_mem h
      omega
    · intro hnd; exact hnd.not_mem_erase
  · intro op e h; simp [stepHot, h]

/-- C4 witness: the error and success branches at concrete inputs — a
duplicate Add, an Add on a full list, a plain append, a failed and a
successful Replace, a failed and a successful Delete, and the unchanged-list
guarantee of a failing step. -/
theorem C4_hot_take_errors_witness :
    add_hot_take ["a"] "a" = .error .duplicateTake ∧
    add_hot_take ["a", "b", "c", "d"] "e" = .error .capacityExceeded ∧
    add_hot_take ["a"] "b" = .ok ["a", "b"] ∧
    replace_hot_take ["a"] "x" "y" = .error .takeNotFound ∧
    (∃ l', replace_hot_take ["a", "b"] "b" "c" = .ok l' ∧
      l'.length = 2 ∧ l'[(["a", "b"].indexOf "b")]? = some "c" ∧
      ∀ j, j ≠ ["a", "b"].indexOf "b" → l'[j]? = ["a", "b"][j]?) ∧
    delete_hot_take ["a"] "x" = .error .takeNotFound ∧
    stepHot ["a", "b", "c", "d"] (.add "e") = ["a", "b", "c", "d"] := by
  refine ⟨(C4_hot_take_errors ["a"] "a" "x" "y").1 (by decide),
    (C4_hot_take_errors ["a", "b", "c", "d"] "e" "x" "y").2.1 (by decide)
      (by decide),
    (C4_hot_take_errors ["a"] "b" "x" "y").2.2.1 (by decide) (by decide),
    (C4_hot_take_errors ["a"] "t" "x" "y").2.2.2.1 (by decide), ?_,
    (C4_hot_take_errors ["a"] "x" "o" "n").2.2.2.2.2.1 (by decide),
    (C4_hot_take_errors ["a", "b", "c", "d"] "e" "o" "n").2.2.2.2.2.2.2
      (.add "e") .capacityExceeded
      (by simp [applyHotOp, add_hot_take, MAX_HOT_TAKES])⟩
  have h := (C4_hot_take_errors ["a", "b"] "t" "b" "c").2.2.2.2.1 (by decide)
  obtain ⟨l', h1, h2, h3, h4⟩ := h
  exact ⟨l', h1, h2, h3, h4⟩

/-- C2 counterexample: transforming a message by speaker "A" for persona "B"
yields the content "*A says* hi" — the attribution marker of the code — and
not the "A says: hi" form the claim states, so the transform differs from the
spec-described one at this input. -/
theorem C2_counterexample :
    (reformatMsg "B" ⟨.user, "A", ["hi"]⟩).content = ["*A says* hi"] ∧
    (reformatMsg "B" ⟨.user, "A", ["hi"]⟩).content ≠ ["A says: hi"] ∧
    reformatMsg "B" ⟨.user, "A", ["hi"]⟩ ≠ specTransformMsg "B" ⟨.user, "A", ["hi"]⟩ := by
  refine ⟨rfl, by decide, by decide⟩

/-- C2 amended: the Perspective Transformer returns a copy of the transcript,
transformed message by message; a message whose speaker equals the target
persona keeps its (first) content part with role assistant, and every other
message gets role user with content exactly "*SPEAKERLABEL says* CONTENT" —
an asterisk-delimited marker, not the "SPEAKERLABEL says: CONTENT" form; the
input list itself is left untouched (the transform is applied to a copy). -/
theorem C2_amended (personaName : String) (m : DebateMsg)
    (items : List DebateMsg) :
    (m.speaker = personaName →
      reformatMsg personaName m =
        ⟨.assistant, personaName, [firstContent m]⟩) ∧
    (m.speaker ≠ personaName →
      reformatMsg personaName m =
        ⟨.user, m.speaker, ["*" ++ m.speaker ++ " says* " ++ firstContent m]⟩) ∧
    (_reformat_history personaName items).length = items.length ∧
    (∀ i : Nat, (_reformat_history personaName items)[i]? =
      (items[i]?).map (reformatMsg personaName)) := by
  refine ⟨?_, ?_, by simp [_reformat_history], ?_⟩
  · intro h; simp [reformatMsg, h]
  · intro h; simp [reformatMsg, h]
  · intro i; simp [_reformat_history]

/-- C2 witness: both branches of the transform at concrete messages, for the
target persona "A". -/
theorem C2_witness :
    reformatMsg "A" ⟨.assistant, "A", ["own point"]⟩ =
      ⟨.assistant, "A", ["own point"]⟩ ∧
    reformatMsg "A" ⟨.user, "user", ["hello"]⟩ =
      ⟨.user, "user", ["*user says* hello"]⟩ := by
  exact ⟨(C2_amended "A" ⟨.assistant, "A", ["own point"]⟩ []).1 (by decide),
    (C2_amended "A" ⟨.user, "user", ["hello"]⟩ []).2.1 (by decide)⟩

/-- C3: for every argument to the give-turn tool, an argument equal to
"user" case-insensitively yields no handoff and schedules exactly one
prompting utterance (the spec's AwaitingUser transition); an argument whose
lowercasing matches some roster persona's stored name hands the turn to such
a persona (fresh ephemeral speaker); any other argument yields no handoff
and no prompt, leaving the active speaker unchanged — the decision is total,
so the turn is never undefined. -/
theorem C3_next_speaker (allPersonas : List Persona) (speaker : String) :
    (lowerStr speaker = "user" →
      next_speaker allPersonas speaker = ⟨none, 1⟩) ∧
    (lowerStr speaker ≠ "user" →
      (∃ p ∈ allPersonas, lowerStr p.name = lowerStr speaker) →
      ∃ p ∈ allPersonas, lowerStr p.name = lowerStr speaker ∧
        next_speaker allPersonas speaker = ⟨some p, 0⟩) ∧
    (lowerStr speaker ≠ "user" →
      (∀ p ∈ allPersonas, lowerStr p.name ≠ lowerStr speaker) →
      next_speaker allPersonas speaker = ⟨none, 0⟩) := by
  refine ⟨?_, ?_, ?_⟩
  · intro h; simp [next_speaker, h]
  · intro h hex
    cases hf : allPersonas.find? (fun p => lowerStr p.name == lowerStr speaker) with
    | none =>
      obtain ⟨p, hp, hpn⟩ := hex
      have := List.find?_eq_none.mp hf p hp
      simp [hpn] at this
    | some p =>
      refine ⟨p, List.mem_of_find?_eq_some hf, ?_, ?_⟩
      · have := List.find?_some hf
        simpa using this
      · simp [next_speaker, h, hf]
  · intro h hall
    have hf : allPersonas.find?
        (fun p => lowerStr p.name == lowerStr speaker) = none := by
      rw [List.find?_eq_none]
      intro p hp
      simp [hall p hp]
    simp [next_speaker, h, hf]

/-- C3 witness: with the demo roster Raven/Lumi, the argument "USER" yields
no handoff and one scheduled prompt, "raVen" hands the turn to Raven, and the
unknown name "Bob" leaves the speaker unchanged with no prompt. -/
theorem C3_next_speaker_witness :
    next_speaker
      [Persona.mk 0 "Raven" "" "female" "", Persona.mk 1 "Lumi" "" "female" ""]
      "USER" = ⟨none, 1⟩ ∧
    (∃ p ∈ [Persona.mk 0 "Raven" "" "female" "",
            Persona.mk 1 "Lumi" "" "female" ""],
      lowerStr p.name = lowerStr "raVen" ∧
      next_speaker
        [Persona.mk 0 "Raven" "" "female" "",
         Persona.mk 1 "Lumi" "" "female" ""] "raVen" = ⟨some p, 0⟩) ∧
    next_speaker
      [Persona.mk 0 "Raven" "" "female" "", Persona.mk 1 "Lumi" "" "female" ""]
      "Bob" = ⟨none, 0⟩ := by
  refine ⟨(C3_next_speaker _ "USER").1 (by decide),
    (C3_next_speaker _ "raVen").2.1 (by decide)
      ⟨Persona.mk 0 "Raven" "" "female" "", by decide⟩,
    (C3_next_speaker _ "Bob").2.2 (by decide) (by decide)⟩

/-- C5 counterexample: with an attempt that fails at time 10 and an attempt
that succeeds at time 50, a successful attempt exists — the spec-side
selector picks it — yet `research_agent` takes `done.pop().result()` of the
FIRST COMPLETED task, re-raising its failure: the run yields an ERROR event
and never a DONE event, so the task does not resolve with the first attempt
to complete successfully. -/
theorem C5_counterexample :
    firstSuccessful
        [some (10, .error "boom"), some (50, .ok ⟨"t", "e", none⟩)] =
      some ⟨"t", "e", none⟩ ∧
    research_agent
        [some (10, .error "boom"), some (50, .ok ⟨"t", "e", none⟩)] =
      [.searching, .errored "boom"] ∧
    ∀ f, ResearchEvent.done f ∉
      research_agent
        [some (10, .error "boom"), some (50, .ok ⟨"t", "e", none⟩)] := by
  refine ⟨rfl, rfl, ?_⟩
  intro f h
  simp [research_agent, firstCompleted, earlierCompletion] at h

/-- C5 amended: the race resolves with the first attempt to COMPLETE,
successful or not: when the first-completed attempt returns a finding the
run ends in a DONE event carrying exactly that finding (the later and the
never-resolving attempts are cancelled and contribute nothing); when the
first-completed attempt failed, the run ends in an ERROR event and produces
no DONE at all, even if a slower attempt would have succeeded; any DONE
event carries the first-completed outcome, so losing attempts never reach
the Research Result Table write. -/
theorem C5_amended (attempts : List ResearchAttempt) (f : Finding)
    (e : String) :
    (firstCompleted attempts = some (.ok f) →
      research_agent attempts = [.searching, .processingData, .done f]) ∧
    (firstCompleted attempts = some (.error e) →
      research_agent attempts = [.searching, .errored e]) ∧
    (∀ g, ResearchEvent.done g ∈ research_agent attempts →
      firstCompleted attempts = some (.ok g)) ∧
    (∀ selfId st, firstCompleted attempts = some (.error e) →
      (_run_research selfId st (research_agent attempts)).1 = st) := by
  refine ⟨?_, ?_, ?_, ?_⟩
  · intro h; simp [research_agent, h]
  · intro h; simp [research_agent, h]
  · intro g hg
    cases hfc : firstCompleted attempts with
    | none => simp [research_agent, hfc] at hg
    | some out =>
      cases out with
      | error msg => simp [research_agent, hfc] at hg
      | ok found =>
        simp [research_agent, hfc] at hg
        rw [hg]
  · intro selfId st h
    simp [research_agent, h, _run_research, researchLoopStep]

/-- C5 witness: the race where the 10ms attempt succeeds, the 50ms attempt
loses and a third attempt never resolves: the run ends in DONE with the 10ms
finding, and an error-first race leaves the session state unchanged. -/
theorem C5_witness :
    research_agent
        [some (10, .ok ⟨"fast", "x", none⟩),
         some (50, .ok ⟨"slow", "y", none⟩), none] =
      [.searching, .processingData, .done ⟨"fast", "x", none⟩] ∧
    (_run_research 0 ⟨[], [0], []⟩
        (research_agent [some (10, .error "boom")])).1 = ⟨[], [0], []⟩ := by
  exact ⟨(C5_amended
      [some (10, .ok ⟨"fast", "x", none⟩),
       some (50, .ok ⟨"slow", "y", none⟩), none]
      ⟨"fast", "x", none⟩ "boom").1 rfl,
    (C5_amended [some (10, .error "boom")] ⟨"", "", none⟩ "boom").2.2.2
      0 ⟨[], [0], []⟩ rfl⟩

theorem lookup_dictInsert (tbl : List (Nat × Finding)) (k : Nat) (f : Finding) :
    List.lookup k (dictInsert tbl k f) = some f := by
  induction tbl with
  | nil => simp [dictInsert, List.lookup]
  | cons hd tl ih =>
    obtain ⟨a, b⟩ := hd
    by_cases h : a = k
    · subst h
      simp [dictInsert, List.lookup]
    · have hk : (k == a) = false := beq_eq_false_iff_ne.mpr (Ne.symm h)
      by_cases h2 : tl.any (fun kv => kv.1 == k) = true
      · simp [dictInsert, List.lookup, h, h2, hk] at ih ⊢
        exact ih
      · have h2' : tl.any (fun kv => kv.1 == k) = false :=
          Bool.eq_false_iff.mpr h2
        simp [dictInsert, List.lookup, h, h2', hk] at ih ⊢
        exact ih

theorem not_mem_filter_bne (l : List Nat) (x : Nat) :
    x ∉ l.filter (fun i => i != x) := by
  simp [List.mem_filter]

/-- C6: while persona p is in the Researching Set, every name on the
other-participants line of any persona's instructions belongs to a
non-researching roster member other than the builder, so p is omitted; on a
successful research run the finding is stored in the Research Result Table
under p's id, p is discarded from the Researching Set, an agent-returned
notification with findings is sent, and the instructions built for p
afterwards carry the stored finding — `_build_instructions` only reads the
table (`research_results.get`), never deletes from it, so the entry stays. -/
theorem C6_research_lifecycle (q selfP : Persona) (topic : String)
    (allPersonas : List Persona) (researching : List Nat) (st : SessionState)
    (f : Finding) :
    (∀ x ∈ otherParticipantNames q allPersonas researching,
      ∃ p ∈ allPersonas, p.name = x ∧ p.id ∉ researching ∧ p.name ≠ q.name) ∧
    (_run_research selfP.id st [.searching, .processingData, .done f]).1 =
      { st with
          researchResults := dictInsert st.researchResults selfP.id f
          researchingAgents :=
            st.researchingAgents.filter (fun i => i != selfP.id) } ∧
    List.lookup selfP.id
      (_run_research selfP.id st
        [.searching, .processingData, .done f]).1.researchResults = some f ∧
    selfP.id ∉
      (_run_research selfP.id st
        [.searching, .processingData, .done f]).1.researchingAgents ∧
    ResearchRpc.agentReturned selfP.id true ∈
      (_run_research selfP.id st [.searching, .processingData, .done f]).2 ∧
    (_build_instructions selfP topic allPersonas
      (_run_research selfP.id st
        [.searching, .processingData, .done f]).1).findings = some f := by
  have hres : (_run_research selfP.id st
      [.searching, .processingData, .done f]).1 =
      { st with
          researchResults := dictInsert st.researchResults selfP.id f
          researchingAgents :=
            st.researchingAgents.filter (fun i => i != selfP.id) } := by
    simp [_run_research, researchLoopStep]
  refine ⟨?_, hres, ?_, ?_, ?_, ?_⟩
  · intro x hx
    simp only [otherParticipantNames, List.mem_map, List.mem_filter] at hx
    obtain ⟨p, ⟨hpmem, hcond⟩, hname⟩ := hx
    rw [Bool.and_eq_true] at hcond
    refine ⟨p, hpmem, hname, ?_, bne_iff_ne.mp hcond.1⟩
    intro hmem
    have h2 := hcond.2
    simp [List.contains, List.elem_iff, hmem] at h2
  · rw [hres]; exact lookup_dictInsert st.researchResults selfP.id f
  · rw [hres]; exact not_mem_filter_bne st.researchingAgents selfP.id
  · simp [_run_research, researchLoopStep]
  · rw [_build_instructions, hres]
    exact lookup_dictInsert st.researchResults selfP.id f

/-- C6 witness: with the roster Raven (id 0) and Lumi (id 1), nobody
researching, the other-participants line built for Raven lists a
non-researching persona; and a successful research run for Lumi stores the
finding, removes id 1 from the Researching Set, sends the agent-returned
notification, and surfaces the finding in the instructions built next. -/
theorem C6_research_lifecycle_witness :
    (∃ p ∈ [Persona.mk 0 "Raven" "" "female" "",
            Persona.mk 1 "Lumi" "" "female" ""],
      p.name = "Lumi" ∧ p.id ∉ ([] : List Nat) ∧ p.name ≠ "Raven") ∧
    List.lookup 1
      (_run_research 1 ⟨[], [1], []⟩
        [.searching, .processingData,
         .done ⟨"t", "e", none⟩]).1.researchResults =
      some ⟨"t", "e", none⟩ ∧
    1 ∉ (_run_research 1 ⟨[], [1], []⟩
        [.searching, .processingData,
         .done ⟨"t", "e", none⟩]).1.researchingAgents ∧
    ResearchRpc.agentReturned 1 true ∈
      (_run_research 1 ⟨[], [1], []⟩
        [.searching, .processingData, .done ⟨"t", "e", none⟩]).2 ∧
    (_build_instructions (Persona.mk 1 "Lumi" "" "female" "") "cats"
      [Persona.mk 0 "Raven" "" "female" "", Persona.mk 1 "Lumi" "" "female" ""]
      (_run_research 1 ⟨[], [1], []⟩
        [.searching, .processingData,
         .done ⟨"t", "e", none⟩]).1).findings = some ⟨"t", "e", none⟩ := by
  have h := C6_research_lifecycle (Persona.mk 0 "Raven" "" "female" "")
    (Persona.mk 1 "Lumi" "" "female" "") "cats"
    [Persona.mk 0 "Raven" "" "female" "", Persona.mk 1 "Lumi" "" "female" ""]
    [] ⟨[], [1], []⟩ ⟨"t", "e", none⟩
  have ha := h.1 "Lumi" (by decide)
  obtain ⟨p, hp, hn, hr, hq⟩ := ha
  exact ⟨⟨p, hp, hn, hr, hq⟩, h.2.2.1, h.2.2.2.1, h.2.2.2.2.1, h.2.2.2.2.2⟩

/-- C7: the avatar tool accepts only `setExpression` calls; the preset is
lowercased, mapped through the synonym table, and must land in the supported
expressions; a given avatar id must be supported. The call with preset
"Happy" targeting "assistant" is published normalized to preset "smile"; a
`setPose` call is dropped with reason "unsupported-type:setPose"; preset
"angry" is dropped with reason "unsupported-preset:angry"; generally, any
non-`setExpression` type is dropped with its reason and everything published
passed the full filter, so a dropped call is never published. -/
theorem C7_avatar_tool :
    avatar_tool true
        { type := "setExpression", preset := some "Happy"
          context := some { avatarId := some "assistant" } } =
      .sent { kind := "avatar-tool", callType := "setExpression"
              preset := "smile", avatarId := some "assistant" } ∧
    avatar_tool true { type := "setPose" } =
      .skipped "unsupported-type:setPose" ∧
    avatar_tool true { type := "setExpression", preset := some "angry" } =
      .skipped "unsupported-preset:angry" ∧
    (∀ call : AvatarToolCall, stripStr call.type ≠ "setExpression" →
      avatar_tool true call = .skipped ("unsupported-type:" ++ stripStr call.type)) ∧
    (∀ (call : AvatarToolCall) (pl : AvatarPayload),
      avatar_tool true call = .sent pl →
      pl.callType = "setExpression" ∧ pl.preset ∈ SUPPORTED_EXPRESSIONS ∧
      (∀ a, pl.avatarId = some a → a ∈ SUPPORTED_AVATAR_IDS) ∧
      ∃ raw, rawPresetOf call = some raw ∧
        pl.preset =
          (EXPRESSION_SYNONYMS.lookup (lowerStr raw)).getD (lowerStr raw)) := by
  refine ⟨by decide, by decide, by decide, ?_, ?_⟩
  · intro call h
    have hb : (stripStr call.type == "setExpression") = false :=
      beq_eq_false_iff_ne.mpr h
    simp [avatar_tool, hb]
  · intro call pl h
    rw [avatar_tool] at h
    simp only [Bool.not_true, Bool.false_eq_true, if_false] at h
    by_cases ht : (stripStr call.type == "setExpression") = true
    · rw [if_pos ht] at h
      cases hrp : rawPresetOf call with
      | none => rw [hrp] at h; simp at h
      | some raw =>
        rw [hrp] at h
        simp only at h
        by_cases hsup :
            (EXPRESSION_SYNONYMS.lookup (lowerStr raw)).getD (lowerStr raw) ∈
              SUPPORTED_EXPRESSIONS
        · rw [if_pos hsup] at h
          cases hav : truthy (call.context.getD {}).avatarId with
          | none =>
            rw [hav] at h
            dsimp only at h
            simp only [AvatarOutcome.sent.injEq] at h
            subst h
            exact ⟨rfl, hsup, by simp, raw, rfl, rfl⟩
          | some a =>
            rw [hav] at h
            dsimp only at h
            by_cases hai : a ∈ SUPPORTED_AVATAR_IDS
            · rw [if_pos hai] at h
              simp only [AvatarOutcome.sent.injEq] at h
              subst h
              refine ⟨rfl, hsup, ?_, raw, rfl, rfl⟩
              intro x hx
              simp only [Option.some.injEq] at hx
              exact hx ▸ hai
            · rw [if_neg hai] at h; simp at h
        · rw [if_neg hsup] at h; simp at h
    · rw [if_neg ht] at h; simp at h

/-- C7 witness: the general drop rule applied to a concrete `setGaze` call,
and the soundness of a concrete publish. -/
theorem C7_avatar_tool_witness :
    avatar_tool true { type := "setGaze" } =
      .skipped "unsupported-type:setGaze" ∧
    ("wink" ∈ SUPPORTED_EXPRESSIONS ∧
      ∃ raw, rawPresetOf { type := "setExpression", preset := some "Winking" } =
          some raw ∧
        "wink" = (EXPRESSION_SYNONYMS.lookup (lowerStr raw)).getD (lowerStr raw)) := by
  refine ⟨?_, ?_⟩
  · have h := C7_avatar_tool.2.2.2.1 { type := "setGaze" } (by decide)
    simpa using h
  · have h := C7_avatar_tool.2.2.2.2
      { type := "setExpression", preset := some "Winking" }
      { kind := "avatar-tool", callType := "setExpression", preset := "wink"
        avatarId := none }
      (by decide)
    exact ⟨h.2.1, h.2.2.2⟩

/-- The retry loop makes at most `budget` further attempts past `used`, and
gives up (still failing) exactly when the whole budget is consumed. -/
theorem retryLoop_bounds (attemptOk : Nat → Bool) :
    ∀ budget used,
      (retryLoop attemptOk budget used).attemptsMade ≤ used + budget ∧
      ((retryLoop attemptOk budget used).ok = false →
        (retryLoop attemptOk budget used).attemptsMade = used + budget) := by
  intro budget
  induction budget with
  | zero => intro used; simp [retryLoop]
  | succ b ih =>
    intro used
    by_cases h : attemptOk used = true
    · refine ⟨?_, ?_⟩
      · rw [retryLoop]; simp [h]
      · intro hok
        rw [retryLoop] at hok
        simp [h] at hok
    · have h' : attemptOk used = false := Bool.eq_false_iff.mpr h
      obtain ⟨t1, t2⟩ := ih (used + 1)
      have hr : retryLoop attemptOk (b + 1) used =
          retryLoop attemptOk b (used + 1) := by
        rw [retryLoop]; simp [h']
      rw [hr]
      refine ⟨by omega, ?_⟩
      intro hok
      have := t2 hok
      omega

/-- C8: every publish makes at most 3 `perform_rpc` attempts; when the room
io, the room, or the remote-participant set is missing, `_send_rpc` returns
immediately as a success with zero attempts — no retry and no raised error;
a failure is only reported after exactly 3 attempts, and a first-attempt
success performs no retry. (That publishes do not block the debate flow is a
scheduling property of the surrounding `asyncio.create_task` calls, outside
this embedding; the bounded-retry and no-endpoint behavior proved here is
what the claim asserts of `_send_rpc` itself.) -/
theorem C8_send_rpc (hasRoomIo hasRoom : Bool) (parts : List String)
    (attemptOk : Nat → Bool) :
    (_send_rpc hasRoomIo hasRoom parts attemptOk).attemptsMade ≤ 3 ∧
    (hasRoomIo = false ∨ hasRoom = false ∨ parts = [] →
      _send_rpc hasRoomIo hasRoom parts attemptOk = ⟨true, 0⟩) ∧
    ((_send_rpc hasRoomIo hasRoom parts attemptOk).ok = false →
      (_send_rpc hasRoomIo hasRoom parts attemptOk).attemptsMade = 3) ∧
    (attemptOk 0 = true →
      (_send_rpc hasRoomIo hasRoom parts attemptOk).attemptsMade ≤ 1) := by
  cases hio : hasRoomIo with
  | false => simp [_send_rpc]
  | true =>
    cases hr : hasRoom with
    | false => simp [_send_rpc]
    | true =>
      cases parts with
      | nil => simp [_send_rpc]
      | cons hd tl =>
        have hb := retryLoop_bounds attemptOk 3 0
        refine ⟨by simpa using hb.1, by simp, by simpa using hb.2, ?_⟩
        intro h0
        simp [_send_rpc, retryLoop, h0]

/-- C8 witness: with an attached endpoint and a channel that always fails,
the publish stops after exactly 3 attempts; with no room io it resolves as a
success with zero attempts; and a first-try success makes one attempt. -/
theorem C8_send_rpc_witness :
    (_send_rpc true true ["client"] (fun _ => false)).attemptsMade ≤ 3 ∧
    _send_rpc false true [] (fun _ => false) = ⟨true, 0⟩ ∧
    (_send_rpc true true ["client"] (fun _ => false)).attemptsMade = 3 ∧
    (_send_rpc true true ["client"] (fun _ => true)).attemptsMade ≤ 1 := by
  exact ⟨(C8_send_rpc true true ["client"] (fun _ => false)).1,
    (C8_send_rpc false true [] (fun _ => false)).2.1 (Or.inl rfl),
    (C8_send_rpc true true ["client"] (fun _ => false)).2.2.1 (by decide),
    (C8_send_rpc true true ["client"] (fun _ => true)).2.2.2 rfl⟩

/-- C9 counterexample: on an entry with `first = False` — an ordinary
handoff, not the first entry of the session — a transcript holding a user
message still triggers the direct reply and the next-speaker decision: the
reply-then-decide sequence is not limited to the first entry, because the
`has_user_message` branch of `on_enter` is not guarded by `self.first`. -/
theorem C9_counterexample :
    on_enter false 0 [⟨.user, "user", ["hi"]⟩] =
      [.rpcSpeakerChanged 0, .updateChatCtx, .generateDirectReply,
       .generateNextSpeakerDecision] ∧
    EnterAction.generateDirectReply ∈
      on_enter false 0 [⟨.user, "user", ["hi"]⟩] := by
  exact ⟨rfl, by decide⟩

/-- C9 amended: on EVERY entry of a speaker — not only the first entry for
the session — if the transcript contains a user message the speaker produces
the direct reply strictly before the next-speaker decision request, and if
it contains none, neither a reply nor a decision request is issued; the
presence of the reply is equivalent to the presence of a user message,
independently of the `first` flag (which only controls the
`personas_created` notification). -/
theorem C9_amended (first : Bool) (selfId : Nat) (history : List DebateMsg) :
    (hasUserMessage history = true →
      ∃ i j : Nat, i < j ∧
        (on_enter first selfId history)[i]? =
          some EnterAction.generateDirectReply ∧
        (on_enter first selfId history)[j]? =
          some EnterAction.generateNextSpeakerDecision) ∧
    (hasUserMessage history = false →
      EnterAction.generateDirectReply ∉ on_enter first selfId history ∧
      EnterAction.generateNextSpeakerDecision ∉ on_enter first selfId history) ∧
    (EnterAction.generateDirectReply ∈ on_enter first selfId history ↔
      hasUserMessage history = true) := by
  refine ⟨?_, ?_, ?_⟩
  · intro hu
    cases first with
    | false => exact ⟨2, 3, by omega, by simp [on_enter, hu], by simp [on_enter, hu]⟩
    | true => exact ⟨3, 4, by omega, by simp [on_enter, hu], by simp [on_enter, hu]⟩
  · intro hu
    cases first <;> simp [on_enter, hu]
  · cases hu : hasUserMessage history <;> cases first <;> simp [on_enter, hu]

/-- C9 witness: the first entry with a user message present replies before
deciding, and an entry with an empty transcript issues no reply. -/
theorem C9_witness :
    (∃ i j : Nat, i < j ∧
      (on_enter true 0 [⟨.user, "user", ["hi"]⟩])[i]? =
        some EnterAction.generateDirectReply ∧
      (on_enter true 0 [⟨.user, "user", ["hi"]⟩])[j]? =
        some EnterAction.generateNextSpeakerDecision) ∧
    EnterAction.generateDirectReply ∉ on_enter true 0 [] := by
  exact ⟨(C9_amended true 0 [⟨.user, "user", ["hi"]⟩]).1 (by decide),
    ((C9_amended true 0 []).2.1 (by decide)).1⟩

theorem researchLoopStep_fst_of_not_done (selfId : Nat) (st : SessionState)
    (ev : ResearchEvent) (h : ∀ f, ev ≠ .done f) :
    (researchLoopStep selfId st ev).1 = st := by
  cases ev with
  | done f => exact absurd rfl (h f)
  | searching => rfl
  | processingData => rfl
  | errored e => rfl

theorem foldl_research_fst (selfId : Nat) :
    ∀ evs : List ResearchEvent, (∀ f, ResearchEvent.done f ∉ evs) →
      ∀ p : SessionState × List ResearchRpc,
        (evs.foldl (fun acc ev =>
          ((researchLoopStep selfId acc.1 ev).1,
           acc.2 ++ (researchLoopStep selfId acc.1 ev).2)) p).1 = p.1 := by
  intro evs
  induction evs with
  | nil => intro _ p; rfl
  | cons ev rest ih =>
    intro h p
    have h1 : ∀ f, ResearchEvent.done f ∉ rest := fun f hf =>
      h f (List.mem_cons_of_mem ev hf)
    have h2 : ∀ f, ev ≠ .done f := fun f hEq =>
      h f (hEq ▸ List.mem_cons_self ev rest)
    rw [List.foldl_cons, ih h1]
    exact researchLoopStep_fst_of_not_done selfId p.1 ev h2

/-- C10: the research loop updates the session only on the DONE path: a run
whose events contain no DONE — in particular a race decided by a failing
attempt, which yields SEARCHING then ERROR — leaves the whole session state
unchanged, so the persona's id stays in the Researching Set, the Research
Result Table gains no entry for it, and it remains excluded from every
other persona's other-participants list for the rest of the session. -/
theorem C10_error_keeps_researching (selfId : Nat) (st : SessionState)
    (evs : List ResearchEvent) (attempts : List ResearchAttempt) (e : String) :
    ((∀ f, ResearchEvent.done f ∉ evs) → (_run_research selfId st evs).1 = st) ∧
    (firstCompleted attempts = some (.error e) →
      (_run_research selfId st (research_agent attempts)).1 = st ∧
      (selfId ∈ st.researchingAgents → selfId ∈
        (_run_research selfId st (research_agent attempts)).1.researchingAgents) ∧
      List.lookup selfId
        (_run_research selfId st (research_agent attempts)).1.researchResults =
        List.lookup selfId st.researchResults ∧
      ∀ (q : Persona) (allPersonas : List Persona),
        otherParticipantNames q allPersonas
          (_run_research selfId st (research_agent attempts)).1.researchingAgents =
        otherParticipantNames q allPersonas st.researchingAgents) := by
  have hmain : (∀ f, ResearchEvent.done f ∉ evs) →
      (_run_research selfId st evs).1 = st := by
    intro h
    exact foldl_research_fst selfId evs h (st, [])
  refine ⟨hmain, ?_⟩
  intro hfc
  have hev : research_agent attempts = [.searching, .errored e] := by
    simp [research_agent, hfc]
  have hnodone : ∀ f, ResearchEvent.done f ∉ research_agent attempts := by
    intro f; rw [hev]; simp
  have hst : (_run_research selfId st (research_agent attempts)).1 = st :=
    foldl_research_fst selfId (research_agent attempts) hnodone (st, [])
  rw [hst]
  exact ⟨rfl, fun h => h, rfl, fun q allPersonas => rfl⟩

/-- C10 witness: a race decided by a failure at time 5 leaves id 2 in the
Researching Set and the table without an entry for it. -/
theorem C10_error_keeps_researching_witness :
    (_run_research 2 ⟨[], [2], []⟩
      (research_agent [some (5, .error "x")])).1 = ⟨[], [2], []⟩ ∧
    2 ∈ (_run_research 2 ⟨[], [2], []⟩
      (research_agent [some (5, .error "x")])).1.researchingAgents ∧
    List.lookup 2 (_run_research 2 ⟨[], [2], []⟩
      (research_agent [some (5, .error "x")])).1.researchResults = none := by
  have h := (C10_error_keeps_researching 2 ⟨[], [2], []⟩ []
    [some (5, .error "x")] "x").2 rfl
  exact ⟨h.1, h.2.1 (by decide), h.2.2.1⟩

end XiaHack
